import Mathlib

/-!
Verification of the configuration-synchronization engine of the
CyberRadioDriver repository (`CyberRadioDriver/components.py`).

The Python component layer is shallowly embedded here:

* the numeric helpers `adjustFrequency` / `adjustAttenuation` become functions
  on `ℚ` (Python floats are modelled as exact rationals; `numpy.around` is
  round-half-to-even at a decimal position, and `int(numpy.log10(1/res))` is
  the truncation toward zero of the exact base-10 logarithm);
* every `_setConfiguration` / `_queryConfiguration` override becomes a pure
  state machine over the mirrored configuration map and the diagnostic list.
  The hardware side of a command invocation (`cmd.send`, `cmd.success`,
  `cmd.getResponseInfo()`, attribute echo) lives in `command.py`, which is not
  among the sources; those contracts are modelled from the spec as an
  oracle giving the outcome of each wiring.

Python `dict` entries are modelled with two `Option` layers:
`config k = none` means the key is absent, `config k = some none` means the
key is present with value `None`, and `config k = some (some v)` means the
key holds the number `v`.
-/

/-- Fuel-driven base-10 logarithm on `ℕ`: `natLog10Aux fuel n` is the number
of times `n` can be divided by 10 before dropping below 10 (0 for `n < 10`).
With `fuel ≥ n` it computes `⌊log10 n⌋` for `n ≥ 1`. -/
def natLog10Aux : ℕ → ℕ → ℕ
  | 0, _ => 0
  | fuel + 1, n => if n < 10 then 0 else natLog10Aux fuel (n / 10) + 1

/-- `⌊log10 n⌋` for `n ≥ 1` (0 for `n = 0`). -/
def natLog10 (n : ℕ) : ℕ := natLog10Aux n n

/-- `int(numpy.log10(x))` for a positive rational `x`: the truncation toward
zero of `log10 x`.  For `x ≥ 1` this is `⌊log10 x⌋`; for `0 < x < 1` it is
`⌈log10 x⌉ = -⌊log10 x⁻¹⌋`.  (The Python code computes the logarithm in
floating point; the embedding uses the exact value.) -/
def pyIntLog10 (x : ℚ) : ℤ :=
  if 1 ≤ x then (natLog10 (Int.toNat ⌊x⌋) : ℤ) else -(natLog10 (Int.toNat ⌊x⁻¹⌋) : ℤ)

/-- Round-half-to-even on `ℚ`, the rounding used by `numpy.around`:
nearest integer, with a value exactly halfway between two integers going to
the even one. -/
def roundHalfEven (x : ℚ) : ℤ :=
  if x - ⌊x⌋ < 1/2 then ⌊x⌋
  else if 1/2 < x - ⌊x⌋ then ⌊x⌋ + 1
  else if ⌊x⌋ % 2 = 0 then ⌊x⌋ else ⌊x⌋ + 1

/-- `numpy.around(x, d)`: round `x` to `d` decimal places (`d` may be
negative), half-to-even. -/
def numpyAround (x : ℚ) (d : ℤ) : ℚ :=
  (roundHalfEven (x * (10 : ℚ) ^ d) : ℚ) / (10 : ℚ) ^ d

/-- `components.adjustFrequency(frqIn, frange, res, units)`: clamp the input
into the range (each comparison is made against the raw input, as in the
source, and the upper-bound test is applied second), round to
`int(log10(1/res))` decimal places, divide by the unit specifier. -/
def adjustFrequency (frqIn : ℚ) (frange : ℚ × ℚ) (res units : ℚ) : ℚ :=
  numpyAround
    (if frqIn > frange.2 then frange.2 else if frqIn < frange.1 then frange.1 else frqIn)
    (pyIntLog10 (1 / res)) / units

/-- `components.adjustAttenuation(attIn, attRange, attRes, attUnits)`:
clamp with `max` then `min`, round to `int(log10(1/attRes))` decimal places,
divide by the unit specifier. -/
def adjustAttenuation (attIn : ℚ) (attRange : ℚ × ℚ) (attRes attUnits : ℚ) : ℚ :=
  numpyAround (min (max attIn attRange.1) attRange.2) (pyIntLog10 (1 / attRes)) / attUnits

/-- The rounding rule as the spec words it: nearest integer, with ties
resolved away from zero.  Present only to compare the tie-breaking
rule of the spec with the one of the code. -/
def roundHalfAwayFromZero (x : ℚ) : ℤ :=
  if 0 ≤ x then ⌊x + 1/2⌋ else -⌊-x + 1/2⌋

theorem roundHalfEven_of_lt (x : ℚ) (n : ℤ) (h1 : ⌊x⌋ = n) (h2 : x - n < 1/2) :
    roundHalfEven x = n := by
  simp only [roundHalfEven, h1]
  rw [if_pos h2]

theorem roundHalfEven_of_gt (x : ℚ) (n : ℤ) (h1 : ⌊x⌋ = n) (h2 : 1/2 < x - n) :
    roundHalfEven x = n + 1 := by
  simp only [roundHalfEven, h1]
  rw [if_neg (by linarith), if_pos h2]

theorem roundHalfEven_tie (x : ℚ) (n : ℤ) (h1 : ⌊x⌋ = n) (h2 : x - n = 1/2) :
    roundHalfEven x = if n % 2 = 0 then n else n + 1 := by
  simp only [roundHalfEven, h1]
  rw [if_neg (by linarith), if_neg (by linarith)]

theorem roundHalfEven_intCast (k : ℤ) : roundHalfEven (k : ℚ) = k := by
  apply roundHalfEven_of_lt _ _ (Int.floor_intCast k)
  simp

theorem floor_le_roundHalfEven (x : ℚ) : ⌊x⌋ ≤ roundHalfEven x := by
  unfold roundHalfEven
  split_ifs <;> omega

theorem roundHalfEven_le_floor_add_one (x : ℚ) : roundHalfEven x ≤ ⌊x⌋ + 1 := by
  unfold roundHalfEven
  split_ifs <;> omega

theorem roundHalfEven_mono {x y : ℚ} (h : x ≤ y) : roundHalfEven x ≤ roundHalfEven y := by
  rcases lt_or_eq_of_le (Int.floor_le_floor h) with hf | hf
  · have h1 : roundHalfEven x ≤ ⌊x⌋ + 1 := roundHalfEven_le_floor_add_one x
    have h2 : ⌊y⌋ ≤ roundHalfEven y := floor_le_roundHalfEven y
    omega
  · have hxy : x - (⌊x⌋ : ℚ) ≤ y - (⌊x⌋ : ℚ) := by linarith
    unfold roundHalfEven
    rw [← hf]
    split_ifs <;> first | omega | (exfalso; linarith)

theorem abs_sub_roundHalfEven_le (x : ℚ) : |x - (roundHalfEven x : ℚ)| ≤ 1/2 := by
  have h0 := Int.floor_le x
  have h1 := Int.lt_floor_add_one x
  unfold roundHalfEven
  split_ifs <;> rw [abs_le] <;> constructor <;> push_cast <;> linarith

theorem roundHalfEven_tie_even (x : ℚ) (h : |x - (roundHalfEven x : ℚ)| = 1/2) :
    roundHalfEven x % 2 = 0 := by
  have h0 := Int.floor_le x
  have h1 := Int.lt_floor_add_one x
  unfold roundHalfEven at h ⊢
  split_ifs at h ⊢ with c1 c2 c3
  · exfalso
    rw [abs_of_nonneg (by linarith)] at h
    linarith
  · exfalso
    rw [abs_of_nonpos (by push_cast; linarith)] at h
    push_cast at h
    linarith
  · exact c3
  · omega

/-- Clamping with two `if`s against the raw input (`adjustFrequency` style)
agrees with clamping via `max`/`min` (`adjustAttenuation` style) whenever the
range is nonempty, so the two source helpers implement the same function. -/
theorem adjustFrequency_eq_adjustAttenuation (x r0 r1 res units : ℚ) (hr : r0 ≤ r1) :
    adjustFrequency x (r0, r1) res units = adjustAttenuation x (r0, r1) res units := by
  unfold adjustFrequency adjustAttenuation
  have hclamp : (if x > r1 then r1 else if x < r0 then r0 else x) = min (max x r0) r1 := by
    rcases lt_or_le r1 x with h1 | h1
    · rw [if_pos h1, max_eq_left (le_trans hr h1.le), min_eq_right h1.le]
    · rw [if_neg (not_lt.mpr h1)]
      rcases lt_or_le x r0 with h2 | h2
      · rw [if_pos h2, max_eq_right h2.le, min_eq_left hr]
      · rw [if_neg (not_lt.mpr h2), max_eq_left h2, min_eq_left h1]
  rw [hclamp]

theorem pyIntLog10_one : pyIntLog10 1 = 0 := by
  rw [pyIntLog10, if_pos le_rfl, Int.floor_one]
  decide

theorem pyIntLog10_half : pyIntLog10 ((1 : ℚ)/2) = 0 := by
  rw [pyIntLog10, if_neg (by norm_num)]
  rw [show ((1 : ℚ)/2)⁻¹ = 2 by norm_num]
  rw [show ⌊(2 : ℚ)⌋ = 2 by norm_num]
  decide

theorem natLog10_million : natLog10 1000000 = 6 := by decide

theorem pyIntLog10_millionth : pyIntLog10 ((1 : ℚ)/1000000) = -6 := by
  rw [pyIntLog10, if_neg (by norm_num)]
  rw [show ((1 : ℚ)/1000000)⁻¹ = 1000000 by norm_num]
  rw [show ⌊(1000000 : ℚ)⌋ = 1000000 by norm_num]
  rw [show Int.toNat 1000000 = 1000000 by decide, natLog10_million]
  decide

theorem roundHalfEven_eval_int (q : ℚ) (k : ℤ) (h : q = k) : roundHalfEven q = k :=
  h ▸ roundHalfEven_intCast k

theorem numpyAround_eval (x : ℚ) (d : ℤ) (k : ℤ) (r : ℚ)
    (hk : roundHalfEven (x * (10 : ℚ) ^ d) = k) (hr : (k : ℚ) / (10 : ℚ) ^ d = r) :
    numpyAround x d = r := by
  rw [numpyAround, hk, hr]

theorem adjustAttenuation_eval_c2 : adjustAttenuation 3 (0, 10) 2 1 = 3 := by
  show numpyAround (min (max (3 : ℚ) 0) 10) (pyIntLog10 (1/2)) / 1 = 3
  rw [show min (max (3 : ℚ) 0) 10 = 3 by norm_num, pyIntLog10_half]
  rw [numpyAround_eval 3 0 3 3 (roundHalfEven_eval_int _ 3 (by norm_num)) (by norm_num)]
  norm_num

theorem adjustAttenuation_eval_tie : adjustAttenuation (5/2) (0, 10) 1 1 = 2 := by
  show numpyAround (min (max ((5:ℚ)/2) 0) 10) (pyIntLog10 (1/1)) / 1 = 2
  rw [show min (max ((5:ℚ)/2) 0) 10 = 5/2 by norm_num]
  rw [show (1 : ℚ)/1 = 1 by norm_num, pyIntLog10_one]
  have htie : roundHalfEven ((5:ℚ)/2 * (10 : ℚ) ^ (0:ℤ)) = 2 := by
    rw [show ((5:ℚ)/2 * (10 : ℚ) ^ (0:ℤ)) = 5/2 by norm_num]
    rw [roundHalfEven_tie (5/2) 2 (by norm_num) (by push_cast; norm_num)]
    decide
  rw [numpyAround_eval (5/2) 0 2 2 htie (by norm_num)]
  norm_num

theorem roundHalfAwayFromZero_tie : roundHalfAwayFromZero (5/2) = 3 := by
  rw [roundHalfAwayFromZero, if_pos (by norm_num)]
  rw [show (5:ℚ)/2 + 1/2 = 3 by norm_num]
  norm_num

/-- C2 (amended): for every input, every nonempty range, every positive
resolution and positive unit divisor, the adjusted value lies within
`[min/units, max/units]` and is an exact integer multiple of the decimal
quantum `10^(-d) / units` where `d = int(log10(1/res))` — provided the two
range bounds are themselves integer multiples of `10^(-d)`.  (The quantum
equals `res/units` only when `res` is a power of ten; the original claim, stating an
exact multiple of the resolution, fails otherwise, and without the
bounds-alignment proviso the rounded value can leave the range.)
`adjustFrequency` agrees with `adjustAttenuation` on nonempty ranges, so the
statement covers both source helpers. -/
theorem adjustNumeric_range_and_quantum (x r0 r1 res units : ℚ)
    (hr : r0 ≤ r1) (hres : 0 < res) (hu : 0 < units)
    (h0 : ∃ k0 : ℤ, r0 * (10 : ℚ) ^ pyIntLog10 (1/res) = k0)
    (h1 : ∃ k1 : ℤ, r1 * (10 : ℚ) ^ pyIntLog10 (1/res) = k1) :
    r0 / units ≤ adjustAttenuation x (r0, r1) res units ∧
    adjustAttenuation x (r0, r1) res units ≤ r1 / units ∧
    (∃ k : ℤ, adjustAttenuation x (r0, r1) res units * units * (10 : ℚ) ^ pyIntLog10 (1/res) = k) ∧
    adjustFrequency x (r0, r1) res units = adjustAttenuation x (r0, r1) res units := by
  obtain ⟨k0, hk0⟩ := h0
  obtain ⟨k1, hk1⟩ := h1
  have hP : (0:ℚ) < (10 : ℚ) ^ pyIntLog10 (1/res) := zpow_pos (by norm_num) _
  have hval : adjustAttenuation x (r0, r1) res units
      = (roundHalfEven (min (max x r0) r1 * (10 : ℚ) ^ pyIntLog10 (1/res)) : ℚ)
        / (10 : ℚ) ^ pyIntLog10 (1/res) / units := rfl
  have hc0 : r0 ≤ min (max x r0) r1 := le_min (le_max_right x r0) hr
  have hc1 : min (max x r0) r1 ≤ r1 := min_le_right _ _
  have hK0 : k0 ≤ roundHalfEven (min (max x r0) r1 * (10 : ℚ) ^ pyIntLog10 (1/res)) := by
    have hm := roundHalfEven_mono (mul_le_mul_of_nonneg_right hc0 hP.le)
    rwa [hk0, roundHalfEven_intCast] at hm
  have hK1 : roundHalfEven (min (max x r0) r1 * (10 : ℚ) ^ pyIntLog10 (1/res)) ≤ k1 := by
    have hm := roundHalfEven_mono (mul_le_mul_of_nonneg_right hc1 hP.le)
    rwa [hk1, roundHalfEven_intCast] at hm
  refine ⟨?_, ?_, ⟨roundHalfEven (min (max x r0) r1 * (10 : ℚ) ^ pyIntLog10 (1/res)), ?_⟩, ?_⟩
  · rw [hval, div_div, div_le_div_iff₀ hu (by positivity)]
    calc r0 * ((10 : ℚ) ^ pyIntLog10 (1/res) * units)
        = (k0 : ℚ) * units := by rw [← hk0]; ring
      _ ≤ (roundHalfEven (min (max x r0) r1 * (10 : ℚ) ^ pyIntLog10 (1/res)) : ℚ) * units := by
          apply mul_le_mul_of_nonneg_right _ hu.le
          exact_mod_cast hK0
  · rw [hval, div_div, div_le_div_iff₀ (by positivity) hu]
    calc (roundHalfEven (min (max x r0) r1 * (10 : ℚ) ^ pyIntLog10 (1/res)) : ℚ) * units
        ≤ (k1 : ℚ) * units := by
          apply mul_le_mul_of_nonneg_right _ hu.le
          exact_mod_cast hK1
      _ = r1 * ((10 : ℚ) ^ pyIntLog10 (1/res) * units) := by rw [← hk1]; ring
  · rw [hval]
    field_simp
    ring
  · exact adjustFrequency_eq_adjustAttenuation x r0 r1 res units hr

theorem adjustNumeric_range_and_quantum_witness :
    (0 : ℚ) / 2 ≤ adjustAttenuation (73/10) (0, 30) 1 2 ∧
    adjustAttenuation (73/10) (0, 30) 1 2 ≤ 30 / 2 ∧
    (∃ k : ℤ, adjustAttenuation (73/10) (0, 30) 1 2 * 2 * (10 : ℚ) ^ pyIntLog10 (1/1) = k) ∧
    adjustFrequency (73/10) (0, 30) 1 2 = adjustAttenuation (73/10) (0, 30) 1 2 :=
  adjustNumeric_range_and_quantum (73/10) 0 30 1 2 (by norm_num) (by norm_num) (by norm_num)
    ⟨0, by norm_num⟩ ⟨30, by rw [show (1:ℚ)/1 = 1 by norm_num, pyIntLog10_one]; norm_num⟩

/-- C2 counterexample: with resolution 2 (not a power of ten), range
`[0, 10]` and unit divisor 1, the input 3 is returned unchanged, and 3 is
not an integer multiple of the resolution 2 — refuting the claim that the
output is always an exact multiple of the resolution. -/
theorem adjustNumeric_multiple_of_resolution_counterexample :
    adjustAttenuation 3 (0, 10) 2 1 = 3 ∧ ∀ k : ℤ, (k : ℚ) * 2 ≠ 3 := by
  refine ⟨adjustAttenuation_eval_c2, ?_⟩
  intro k hk
  have h2 : ((2 * k : ℤ) : ℚ) = ((3 : ℤ) : ℚ) := by push_cast; linarith
  have h3 : (2 * k : ℤ) = 3 := by exact_mod_cast h2
  omega

/-- C6 (amended): the adjustment functions round the clamped value to the
nearest multiple of the decimal quantum `10^(-d)` implied by the resolution
(`d = int(log10(1/res))`), and an input lying exactly halfway between two
adjacent multiples rounds to the multiple with an even coefficient
(half-to-even) — not away from zero.  Concretely: the
scaled result `adjustAttenuation x r res units * units * 10^d` is an integer
`k` within `1/2` of the scaled clamped value, and at an exact tie `k` is
even. -/
theorem adjustNumeric_round_nearest_tie_even (x r0 r1 res units : ℚ)
    (hres : 0 < res) (hu : 0 < units) :
    ∃ k : ℤ,
      adjustAttenuation x (r0, r1) res units * units * (10 : ℚ) ^ pyIntLog10 (1/res) = k ∧
      |min (max x r0) r1 * (10 : ℚ) ^ pyIntLog10 (1/res) - k| ≤ 1/2 ∧
      (|min (max x r0) r1 * (10 : ℚ) ^ pyIntLog10 (1/res) - k| = 1/2 → k % 2 = 0) := by
  have hP : (0:ℚ) < (10 : ℚ) ^ pyIntLog10 (1/res) := zpow_pos (by norm_num) _
  have hval : adjustAttenuation x (r0, r1) res units
      = (roundHalfEven (min (max x r0) r1 * (10 : ℚ) ^ pyIntLog10 (1/res)) : ℚ)
        / (10 : ℚ) ^ pyIntLog10 (1/res) / units := rfl
  refine ⟨roundHalfEven (min (max x r0) r1 * (10 : ℚ) ^ pyIntLog10 (1/res)), ?_, ?_, ?_⟩
  · rw [hval]
    field_simp
    ring
  · exact abs_sub_roundHalfEven_le _
  · exact roundHalfEven_tie_even _

theorem adjustNumeric_round_nearest_tie_even_witness :
    ∃ k : ℤ,
      adjustAttenuation (5/2) (0, 10) 1 1 * 1 * (10 : ℚ) ^ pyIntLog10 (1/1) = k ∧
      |min (max ((5:ℚ)/2) 0) 10 * (10 : ℚ) ^ pyIntLog10 (1/1) - k| ≤ 1/2 ∧
      (|min (max ((5:ℚ)/2) 0) 10 * (10 : ℚ) ^ pyIntLog10 (1/1) - k| = 1/2 → k % 2 = 0) :=
  adjustNumeric_round_nearest_tie_even (5/2) 0 10 1 1 (by norm_num) (by norm_num)

/-- C6 counterexample: the input 2.5 with resolution 1 lies exactly halfway
between the multiples 2 and 3; the code (numpy rounding) returns 2 (the
even neighbour), while the claimed half-away-from-zero rule would return 3. -/
theorem adjustNumeric_tie_counterexample :
    adjustAttenuation (5/2) (0, 10) 1 1 = 2 ∧ roundHalfAwayFromZero (5/2) = 3 ∧ (2 : ℚ) ≠ 3 :=
  ⟨adjustAttenuation_eval_tie, roundHalfAwayFromZero_tie, by norm_num⟩

/-- A Python value stored under a configuration key: `none` is the Python
`None`, `some v` a number. -/
abbrev PyVal := Option ℚ

/-- `d[k] = v` on a Python dict modelled as a partial map: the outer `Option`
is key presence. -/
def setKey {K : Type} [DecidableEq K] (c : K → Option PyVal) (k : K) (v : PyVal) :
    K → Option PyVal :=
  fun k2 => if k2 = k then some v else c k2

theorem setKey_same {K : Type} [DecidableEq K] (c : K → Option PyVal) (k : K) (v : PyVal) :
    setKey c k v k = some v := by
  simp [setKey]

theorem setKey_other {K : Type} [DecidableEq K] (c : K → Option PyVal) (k k2 : K) (v : PyVal)
    (h : k2 ≠ k) : setKey c k v k2 = c k2 := by
  simp [setKey, h]

/-- Modelled from the spec: the outcome of one set-mode command invocation.
`ok` is the conjunction of `cmd.send(callback)` and `cmd.success` (§4.2:
transport round-trip accepted and hardware acknowledged); `echo` is the value
`getattr(cmd, key)` holds after the round-trip — the value the hardware
acknowledged (§4.3.5), for wirings whose mirror update reads the command
attribute back. -/
structure CmdOutcome where
  ok : Bool
  echo : ℚ

/-- One set-path wiring block, the uniform pattern of every
`_setConfiguration` override: if the guard fires, and the command of the wiring is
issued, the running result is AND-ed with the invocation outcome, the
diagnostic list receives one failure entry for a failed invocation (modelled
from the spec §7: `_addLastCommandErrorInfo` records the detail of
every failed wiring, successful wirings add nothing), and — only when the *accumulated*
result is still true — the mirror update `upd` runs, fed the echoed value. -/
def applyWiring {K W : Type} [DecidableEq K] (fire : Bool) (o : CmdOutcome) (w : W)
    (upd : (K → Option PyVal) → ℚ → (K → Option PyVal))
    (acc : Bool × (K → Option PyVal) × List W) : Bool × (K → Option PyVal) × List W :=
  if fire then
    ((acc.1 && o.ok),
     (if acc.1 && o.ok then upd acc.2.1 o.echo else acc.2.1),
     acc.2.2 ++ (if o.ok then [] else [w]))
  else acc

/-- The configuration keys of the tuner component (`_tuner`). -/
inductive TKey where
  | enable | frequency | attenuation | rfAttenuation | agp | fltr | timingAdj
  deriving DecidableEq

/-- The command wirings of the tuner component, in the order
`_tuner._setConfiguration` issues them. -/
inductive TWiring where
  | tpwr | frq | att | agp | fif | tadj
  deriving DecidableEq

/-- The per-model data of a tuner: ranges/resolutions/units and which
command wirings are defined (non-`None`) for this variant. -/
structure TunerParams where
  frqRange : ℚ × ℚ
  frqRes : ℚ
  frqUnits : ℚ
  attRange : ℚ × ℚ
  attRes : ℚ
  tpwrCmd : Bool
  frqCmd : Bool
  attCmd : Bool
  agpCmd : Bool
  fifCmd : Bool
  tadjCmd : Bool

/-- The class attributes of the base `_tuner`: frequency range 20 MHz–3 GHz,
resolution and units 1 MHz, attenuation range 0–30 dB at resolution 1;
`tpwrCmd`, `frqCmd`, `attCmd` defined, `agpCmd`/`fifCmd`/`tadjCmd` are `None`. -/
def tunerBaseParams : TunerParams :=
  { frqRange := (20000000, 3000000000)
    frqRes := 1000000
    frqUnits := 1000000
    attRange := (0, 30)
    attRes := 1
    tpwrCmd := true
    frqCmd := true
    attCmd := true
    agpCmd := false
    fifCmd := false
    tadjCmd := false }

/-- `_tuner._setConfiguration(confDict)`: six wiring blocks in source order
(enable/tpwr, frequency, attenuation, AGP, filter, timing adjustment).
`confDict` is the requested map (present keys carry numbers), `config` the
mirrored map and `errors` the diagnostic list before the call; the result is
(returned boolean, mirrored map, diagnostic list).  The frequency mirror
stores `freqAdj * frqUnits` and the attenuation mirror stores `rfAttAdj`
(both computed values, not echoes), all other wirings store the command echo,
exactly as the source does. -/
def tunerSetConfiguration (p : TunerParams) (oracle : TWiring → CmdOutcome)
    (confDict : TKey → Option ℚ) (config : TKey → Option PyVal) (errors : List TWiring) :
    Bool × (TKey → Option PyVal) × List TWiring :=
  let a1 := applyWiring ((confDict TKey.enable).isSome && p.tpwrCmd) (oracle TWiring.tpwr)
      TWiring.tpwr (fun c e => setKey c TKey.enable (some e)) (true, config, errors)
  let freqAdj := adjustFrequency ((confDict TKey.frequency).getD 0) p.frqRange p.frqRes p.frqUnits
  let a2 := applyWiring ((confDict TKey.frequency).isSome && p.frqCmd) (oracle TWiring.frq)
      TWiring.frq (fun c _ => setKey c TKey.frequency (some (freqAdj * p.frqUnits))) a1
  let rfAttAdj := adjustAttenuation
      ((confDict TKey.rfAttenuation).getD ((confDict TKey.attenuation).getD 0))
      p.attRange p.attRes 1
  let a3 := applyWiring
      (((confDict TKey.attenuation).isSome || (confDict TKey.rfAttenuation).isSome) && p.attCmd)
      (oracle TWiring.att) TWiring.att
      (fun c _ => setKey (setKey c TKey.attenuation (some rfAttAdj))
        TKey.rfAttenuation (some rfAttAdj)) a2
  let a4 := applyWiring ((confDict TKey.agp).isSome && p.agpCmd) (oracle TWiring.agp)
      TWiring.agp (fun c e => setKey c TKey.agp (some e)) a3
  let a5 := applyWiring ((confDict TKey.fltr).isSome && p.fifCmd) (oracle TWiring.fif)
      TWiring.fif (fun c e => setKey c TKey.fltr (some e)) a4
  applyWiring ((confDict TKey.timingAdj).isSome && p.tadjCmd) (oracle TWiring.tadj)
      TWiring.tadj (fun c e => setKey c TKey.timingAdj (some e)) a5

/-- C1 (amended): when a tuner `setConfiguration` call triggers the three
wirings A = enable, B = frequency, C = attenuation in that order and the
invocation for B fails while those for A and C succeed, the call returns `false` and the
diagnostic list gains exactly one failure entry, attributable to B; the
mirrored map is updated for the covered key of A only — the invocation for C is still
issued, but because the mirror write is gated on the *accumulated* result
(`if ret:` in the source), the failure of B suppresses the mirror update for the
covered keys of C, which keep their prior values.  (The original claim asserted
the keys of C are updated too.) -/
theorem tunerSetConfiguration_failure_isolation
    (p : TunerParams) (oracle : TWiring → CmdOutcome) (confDict : TKey → Option ℚ)
    (config : TKey → Option PyVal) (errors : List TWiring)
    (hA : p.tpwrCmd = true) (hB : p.frqCmd = true) (hC : p.attCmd = true)
    (he : (confDict TKey.enable).isSome = true)
    (hf : (confDict TKey.frequency).isSome = true)
    (ha : (confDict TKey.attenuation).isSome = true)
    (hagp : confDict TKey.agp = none)
    (hfif : confDict TKey.fltr = none)
    (htadj : confDict TKey.timingAdj = none)
    (hokA : (oracle TWiring.tpwr).ok = true)
    (hfailB : (oracle TWiring.frq).ok = false)
    (hokC : (oracle TWiring.att).ok = true) :
    (tunerSetConfiguration p oracle confDict config errors).1 = false ∧
    (tunerSetConfiguration p oracle confDict config errors).2.1 TKey.enable
      = some (some (oracle TWiring.tpwr).echo) ∧
    (tunerSetConfiguration p oracle confDict config errors).2.1 TKey.frequency
      = config TKey.frequency ∧
    (tunerSetConfiguration p oracle confDict config errors).2.1 TKey.attenuation
      = config TKey.attenuation ∧
    (tunerSetConfiguration p oracle confDict config errors).2.1 TKey.rfAttenuation
      = config TKey.rfAttenuation ∧
    (tunerSetConfiguration p oracle confDict config errors).2.2 = errors ++ [TWiring.frq] := by
  simp [tunerSetConfiguration, applyWiring, hA, hB, hC, he, hf, ha, hagp, hfif, htadj,
    hokA, hfailB, hokC, setKey]

/-- Outcome oracle where only the frequency wiring fails. -/
def oracleFailFrq : TWiring → CmdOutcome :=
  fun w => match w with
  | TWiring.frq => ⟨false, 0⟩
  | _ => ⟨true, 1⟩

/-- Requested map: enable 1, frequency 1 GHz, attenuation 5 dB. -/
def confC1 : TKey → Option ℚ :=
  fun k => match k with
  | TKey.enable => some 1
  | TKey.frequency => some 1000000000
  | TKey.attenuation => some 5
  | _ => none

/-- Prior mirrored map holding attenuation 7. -/
def configPrior : TKey → Option PyVal :=
  fun k => match k with
  | TKey.attenuation => some (some 7)
  | _ => none

theorem tunerSetConfiguration_failure_isolation_witness :
    (tunerSetConfiguration tunerBaseParams oracleFailFrq confC1 configPrior []).1 = false ∧
    (tunerSetConfiguration tunerBaseParams oracleFailFrq confC1 configPrior []).2.1 TKey.enable
      = some (some (oracleFailFrq TWiring.tpwr).echo) ∧
    (tunerSetConfiguration tunerBaseParams oracleFailFrq confC1 configPrior []).2.1 TKey.frequency
      = configPrior TKey.frequency ∧
    (tunerSetConfiguration tunerBaseParams oracleFailFrq confC1 configPrior []).2.1 TKey.attenuation
      = configPrior TKey.attenuation ∧
    (tunerSetConfiguration tunerBaseParams oracleFailFrq confC1 configPrior []).2.1 TKey.rfAttenuation
      = configPrior TKey.rfAttenuation ∧
    (tunerSetConfiguration tunerBaseParams oracleFailFrq confC1 configPrior []).2.2
      = [] ++ [TWiring.frq] :=
  tunerSetConfiguration_failure_isolation tunerBaseParams oracleFailFrq confC1 configPrior []
    rfl rfl rfl rfl rfl rfl rfl rfl rfl rfl rfl rfl

theorem adjustAttenuation_eval_5 : adjustAttenuation 5 (0, 30) 1 1 = 5 := by
  show numpyAround (min (max (5 : ℚ) 0) 30) (pyIntLog10 (1/1)) / 1 = 5
  rw [show min (max (5 : ℚ) 0) 30 = 5 by norm_num]
  rw [show (1 : ℚ)/1 = 1 by norm_num, pyIntLog10_one]
  rw [numpyAround_eval 5 0 5 5 (roundHalfEven_eval_int _ 5 (by norm_num)) (by norm_num)]
  norm_num

/-- C1 counterexample: concrete tuner call where wirings A (enable) and C
(attenuation) succeed and B (frequency) fails.  The call returns `false`, but
the mirrored attenuation entry keeps its prior value 7 instead of the value 5
a successful attenuation update would have written (the requested 5 passes
through `adjustAttenuation` unchanged) — refuting the claim that the mirror
is updated for the covered keys of both A and C. -/
theorem tunerSetConfiguration_failure_isolation_counterexample :
    (tunerSetConfiguration tunerBaseParams oracleFailFrq confC1 configPrior []).1 = false ∧
    (tunerSetConfiguration tunerBaseParams oracleFailFrq confC1 configPrior []).2.1
        TKey.attenuation = some (some 7) ∧
    adjustAttenuation 5 (0, 30) 1 1 = 5 ∧
    ((some (some 7) : Option PyVal) ≠ some (some 5)) := by
  refine ⟨?_, ?_, adjustAttenuation_eval_5, by norm_num⟩
  · simp [tunerSetConfiguration, applyWiring, oracleFailFrq, confC1, configPrior,
      tunerBaseParams, setKey]
  · simp [tunerSetConfiguration, applyWiring, oracleFailFrq, confC1, configPrior,
      tunerBaseParams, setKey]

/-- Outcome oracle where every invocation succeeds. -/
def oracleAllOk : TWiring → CmdOutcome := fun _ => ⟨true, 0⟩

/-- Requested map of the concrete scenario: frequency 2 450 000 001 Hz,
attenuation 31.4 dB. -/
def confC7 : TKey → Option ℚ :=
  fun k => match k with
  | TKey.frequency => some 2450000001
  | TKey.attenuation => some (157/5)
  | _ => none

theorem adjustFrequency_eval_2450 :
    adjustFrequency 2450000001 (20000000, 3000000000) 1000000 1000000 = 2450 := by
  show numpyAround
      (if (2450000001 : ℚ) > 3000000000 then 3000000000
        else if (2450000001 : ℚ) < 20000000 then 20000000 else 2450000001)
      (pyIntLog10 (1/1000000)) / 1000000 = 2450
  rw [if_neg (by norm_num), if_neg (by norm_num), pyIntLog10_millionth]
  have hk : roundHalfEven ((2450000001 : ℚ) * (10 : ℚ) ^ (-6 : ℤ)) = 2450 := by
    apply roundHalfEven_of_lt
    · norm_num
    · norm_num
  rw [numpyAround_eval _ _ 2450 2450000000 hk (by norm_num)]
  norm_num

theorem adjustAttenuation_eval_31_4 : adjustAttenuation (157/5) (0, 30) 1 1 = 30 := by
  show numpyAround (min (max ((157:ℚ)/5) 0) 30) (pyIntLog10 (1/1)) / 1 = 30
  rw [show min (max ((157:ℚ)/5) 0) 30 = 30 by norm_num]
  rw [show (1 : ℚ)/1 = 1 by norm_num, pyIntLog10_one]
  rw [numpyAround_eval 30 0 30 30 (roundHalfEven_eval_int _ 30 (by norm_num)) (by norm_num)]
  norm_num

/-- C7: on the base tuner (frequency range `[20e6, 3e9]`, resolution and
units `1e6`, attenuation range `[0, 30]`, resolution 1), a call requesting
frequency 2 450 000 001 and attenuation 31.4, with both hardware invocations
succeeding, leaves the mirrored map with frequency exactly 2 450 000 000 and
attenuation exactly 30, and returns `true`. -/
theorem tunerSetConfiguration_concrete_scenario :
    (tunerSetConfiguration tunerBaseParams oracleAllOk confC7 (fun _ => none) []).2.1
        TKey.frequency = some (some 2450000000) ∧
    (tunerSetConfiguration tunerBaseParams oracleAllOk confC7 (fun _ => none) []).2.1
        TKey.attenuation = some (some 30) ∧
    (tunerSetConfiguration tunerBaseParams oracleAllOk confC7 (fun _ => none) []).1 = true := by
  refine ⟨?_, ?_, ?_⟩ <;>
    simp [tunerSetConfiguration, applyWiring, oracleAllOk, confC7, tunerBaseParams, setKey,
      adjustFrequency_eval_2450, adjustAttenuation_eval_31_4] <;>
    norm_num

/-- One query-path wiring block, the uniform pattern of every
`_queryConfiguration` override: if the command of the wiring is defined, the query
invocation is issued; a parsable response (`rspInfo is not None`) drives the
mirror update `upd` with the parsed fields, an unparsable one leaves the
mirror untouched and contributes one failure entry to the diagnostic list
(modelled from the spec §4.2/§7: a query succeeds iff the round-trip
completed and the response was parsable, and only failures are recorded). -/
def queryBlock {K W : Type} (fire : Bool) (w : W) (rsp : Option (K → Option ℚ))
    (upd : (K → Option PyVal) → (K → Option ℚ) → (K → Option PyVal))
    (acc : (K → Option PyVal) × List W) : (K → Option PyVal) × List W :=
  if fire then
    match rsp with
    | some r => (upd acc.1 r, acc.2)
    | none => (acc.1, acc.2 ++ [w])
  else acc

theorem queryBlock_config_untouched {K W : Type} (fire : Bool) (w : W)
    (rsp : Option (K → Option ℚ))
    (upd : (K → Option PyVal) → (K → Option ℚ) → (K → Option PyVal))
    (acc : (K → Option PyVal) × List W) (k : K)
    (h : ∀ c r, upd c r k = c k) :
    (queryBlock fire w rsp upd acc).1 k = acc.1 k := by
  unfold queryBlock
  split
  · cases rsp with
    | none => rfl
    | some r => exact h acc.1 r
  · rfl

/-- `_tuner._queryConfiguration()`: six query wirings in source order.  The
response of each wiring is a parsed field map (`Option ℚ` per key: `none`
when the field is absent from the response).  Mirror writes follow the
source: enable stores `rspInfo.get(ENABLE, 0)`; frequency stores `None` when
the field is absent and `freq * frqUnits` otherwise; attenuation stores
`rspInfo.get(ATT, None)` under both attenuation keys; AGP, filter and timing
adjustment each store `rspInfo.get(key, None)`. -/
def tunerQueryConfiguration (p : TunerParams) (oracle : TWiring → Option (TKey → Option ℚ))
    (config : TKey → Option PyVal) (errors : List TWiring) :
    (TKey → Option PyVal) × List TWiring :=
  let s1 := queryBlock p.tpwrCmd TWiring.tpwr (oracle TWiring.tpwr)
      (fun c r => setKey c TKey.enable (some ((r TKey.enable).getD 0))) (config, errors)
  let s2 := queryBlock p.frqCmd TWiring.frq (oracle TWiring.frq)
      (fun c r => setKey c TKey.frequency ((r TKey.frequency).map (fun f => f * p.frqUnits))) s1
  let s3 := queryBlock p.attCmd TWiring.att (oracle TWiring.att)
      (fun c r => setKey (setKey c TKey.attenuation (r TKey.attenuation))
        TKey.rfAttenuation (r TKey.attenuation)) s2
  let s4 := queryBlock p.agpCmd TWiring.agp (oracle TWiring.agp)
      (fun c r => setKey c TKey.agp (r TKey.agp)) s3
  let s5 := queryBlock p.fifCmd TWiring.fif (oracle TWiring.fif)
      (fun c r => setKey c TKey.fltr (r TKey.fltr)) s4
  queryBlock p.tadjCmd TWiring.tadj (oracle TWiring.tadj)
      (fun c r => setKey c TKey.timingAdj (r TKey.timingAdj)) s5

/-- C3 (amended): during `_tuner._queryConfiguration`, when the frequency
query returns a parsable response that does not contain the frequency field,
the mirrored entry for the frequency key is *set to null* (present with
value `None`), overwriting any prior value; the entry is left unchanged from
its prior value only when the whole response is unparsable (the invocation
failed).  (The original claim asserted a parsable-but-field-less response
leaves the entry unchanged.) -/
theorem tunerQueryConfiguration_missing_field
    (p : TunerParams) (oracle : TWiring → Option (TKey → Option ℚ))
    (config : TKey → Option PyVal) (errors : List TWiring)
    (hp : p.frqCmd = true) :
    (∀ r, oracle TWiring.frq = some r → r TKey.frequency = none →
      (tunerQueryConfiguration p oracle config errors).1 TKey.frequency = some none) ∧
    (oracle TWiring.frq = none →
      (tunerQueryConfiguration p oracle config errors).1 TKey.frequency
        = config TKey.frequency) := by
  have htpwr : ∀ acc, (queryBlock p.tpwrCmd TWiring.tpwr (oracle TWiring.tpwr)
      (fun c r => setKey c TKey.enable (some ((r TKey.enable).getD 0))) acc).1 TKey.frequency
      = acc.1 TKey.frequency :=
    fun acc => queryBlock_config_untouched _ _ _ _ acc TKey.frequency
      (fun c r => setKey_other c TKey.enable TKey.frequency _ (by decide))
  have hatt : ∀ acc, (queryBlock p.attCmd TWiring.att (oracle TWiring.att)
      (fun c r => setKey (setKey c TKey.attenuation (r TKey.attenuation))
        TKey.rfAttenuation (r TKey.attenuation)) acc).1 TKey.frequency
      = acc.1 TKey.frequency :=
    fun acc => queryBlock_config_untouched _ _ _ _ acc TKey.frequency
      (fun c r => by
        rw [setKey_other _ TKey.rfAttenuation TKey.frequency _ (by decide),
          setKey_other _ TKey.attenuation TKey.frequency _ (by decide)])
  have hagp : ∀ acc, (queryBlock p.agpCmd TWiring.agp (oracle TWiring.agp)
      (fun c r => setKey c TKey.agp (r TKey.agp)) acc).1 TKey.frequency
      = acc.1 TKey.frequency :=
    fun acc => queryBlock_config_untouched _ _ _ _ acc TKey.frequency
      (fun c r => setKey_other c TKey.agp TKey.frequency _ (by decide))
  have hfif : ∀ acc, (queryBlock p.fifCmd TWiring.fif (oracle TWiring.fif)
      (fun c r => setKey c TKey.fltr (r TKey.fltr)) acc).1 TKey.frequency
      = acc.1 TKey.frequency :=
    fun acc => queryBlock_config_untouched _ _ _ _ acc TKey.frequency
      (fun c r => setKey_other c TKey.fltr TKey.frequency _ (by decide))
  have htadj : ∀ acc, (queryBlock p.tadjCmd TWiring.tadj (oracle TWiring.tadj)
      (fun c r => setKey c TKey.timingAdj (r TKey.timingAdj)) acc).1 TKey.frequency
      = acc.1 TKey.frequency :=
    fun acc => queryBlock_config_untouched _ _ _ _ acc TKey.frequency
      (fun c r => setKey_other c TKey.timingAdj TKey.frequency _ (by decide))
  constructor
  · intro r hr hmiss
    unfold tunerQueryConfiguration
    rw [htadj, hfif, hagp, hatt]
    simp only [queryBlock, hp, hr, hmiss, if_true]
    simp [setKey]
  · intro hr
    unfold tunerQueryConfiguration
    rw [htadj, hfif, hagp, hatt]
    simp only [queryBlock, hp, hr, if_true]
    exact htpwr (config, errors)

/-- Query oracle: the frequency command returns a parsable response with no
fields; the response of every other command is unparsable. -/
def oracleQueryMissing : TWiring → Option (TKey → Option ℚ) :=
  fun w => match w with
  | TWiring.frq => some (fun _ => none)
  | _ => none

/-- Prior mirrored map holding frequency 100. -/
def configFreq100 : TKey → Option PyVal :=
  fun k => match k with
  | TKey.frequency => some (some 100)
  | _ => none

theorem tunerQueryConfiguration_missing_field_witness :
    (tunerQueryConfiguration tunerBaseParams oracleQueryMissing configFreq100 []).1 TKey.frequency
      = some none :=
  (tunerQueryConfiguration_missing_field tunerBaseParams oracleQueryMissing configFreq100 []
    rfl).1 (fun _ => none) rfl rfl

/-- C3 counterexample: the frequency query of the tuner returns a parsable
response without the frequency field; the mirrored frequency entry, which
previously held 100, is overwritten with null (`some none`) instead of being
left unchanged — refuting the claim. -/
theorem tunerQueryConfiguration_missing_field_counterexample :
    (tunerQueryConfiguration tunerBaseParams oracleQueryMissing configFreq100 []).1 TKey.frequency
      = some none ∧
    configFreq100 TKey.frequency = some (some 100) ∧
    ((some none : Option PyVal) ≠ some (some 100)) := by
  refine ⟨?_, rfl, by simp⟩
  simp [tunerQueryConfiguration, queryBlock, oracleQueryMissing, configFreq100,
    tunerBaseParams, setKey]

/-- Events observable while a transport is attached to a component tree:
`attach i` is the assignment of the transport and callback references on
component `i`, `query i` is component `i` running its
`queryConfiguration()`. -/
inductive AttachEvent where
  | attach (who : ℕ)
  | query (who : ℕ)
  deriving DecidableEq

/-- `_base.addTransport(transport, callback, queryConfig)`: store the
transport and callback on `self`, then — when `queryConfig` — run
`self.queryConfiguration()`. -/
def baseAddTransport (selfId : ℕ) (queryConfig : Bool) : List AttachEvent :=
  [AttachEvent.attach selfId] ++ (if queryConfig then [AttachEvent.query selfId] else [])

/-- `_tx.addTransport(transport, callback, queryConfig)`: forward the call to
every tone generator in `toneGenDict` order first, then run the base-class
`addTransport` on `self`.  For each tone generator, `addTransport` is the base
one. -/
def txAddTransport (toneGenIdxs : List ℕ) (selfId : ℕ) (queryConfig : Bool) : List AttachEvent :=
  (toneGenIdxs.flatMap (fun i => baseAddTransport i queryConfig))
    ++ baseAddTransport selfId queryConfig

/-- C8: with `queryConfig = true`, the transmitter `addTransport` produces
exactly the trace in which every tone generator is attached and immediately
queried (in dictionary order), all before the own transport/callback
assignment of the transmitter, which itself precedes its own query. -/
theorem txAddTransport_children_first (toneGenIdxs : List ℕ) (selfId : ℕ) :
    txAddTransport toneGenIdxs selfId true
      = (toneGenIdxs.flatMap (fun i => [AttachEvent.attach i, AttachEvent.query i]))
        ++ [AttachEvent.attach selfId, AttachEvent.query selfId] := by
  simp [txAddTransport, baseAddTransport]

/-- The own mutable state of a tone-generator component: transport and callback
references, mirrored configuration map, diagnostic list. -/
structure ToneGenNode where
  transport : Option ℕ
  callback : Option ℕ
  config : List (ℕ × ℚ)
  errors : List ℕ

/-- A transmitter component: its own references, mirrored map and diagnostic
list, plus the tone generators it owns (`toneGenDict`, keyed by index). -/
structure TxNode where
  transport : Option ℕ
  callback : Option ℕ
  config : List (ℕ × ℚ)
  errors : List ℕ
  toneGenDict : List (ℕ × ToneGenNode)

/-- `_base.delTransport()`: `self.transport = None; self.callback = None` —
nothing else. -/
def delTransport (n : TxNode) : TxNode :=
  { n with transport := none, callback := none }

/-- C9: `delTransport` nulls the own transport and callback
references and changes nothing else — the mirrored configuration map, the
diagnostic list, and every owned child (the per-child transport, callback,
configuration and diagnostics included) are untouched; the clearing does not
cascade. -/
theorem delTransport_frame (n : TxNode) :
    (delTransport n).transport = none ∧
    (delTransport n).callback = none ∧
    (delTransport n).config = n.config ∧
    (delTransport n).errors = n.errors ∧
    (delTransport n).toneGenDict = n.toneGenDict :=
  ⟨rfl, rfl, rfl, rfl, rfl⟩

/-- The configuration keys a transmitter (`_tx`) wires itself (the nested
tone-generator configuration is handled separately). -/
inductive TXKey where
  | enable | frequency | attenuation
  deriving DecidableEq

/-- The own command wirings of the transmitter, in source order. -/
inductive TxWiring where
  | tpwr | frq | att
  deriving DecidableEq

/-- A transmitter diagnostic entry: either a failed parent wiring, or an
entry spliced in from the diagnostic list of tone generator `tgNum`. -/
inductive TxErr where
  | wiringFail (w : TxWiring)
  | childInfo (tgNum : ℕ) (e : ℕ)
  deriving DecidableEq

/-- Per-model data of a transmitter (`_tx` class attributes). -/
structure TxParams where
  frqRange : ℚ × ℚ
  frqRes : ℚ
  frqUnits : ℚ
  attRange : ℚ × ℚ
  attRes : ℚ
  numToneGen : ℕ
  toneGenIndexBase : ℕ
  tpwrCmd : Bool
  frqCmd : Bool
  attCmd : Bool

/-- `_tx._setConfiguration(confDict)`: the three parent wirings (enable,
frequency, attenuation) exactly as in the tuner, then the tone-generator
loop: for each generator index in `[toneGenIndexBase,
toneGenIndexBase+numToneGen)` whose index appears under the CW sub-key
(`cwConf`), call the child `setConfiguration` and splice the child
diagnostic entries into the parent list.  `childSet i` is the outcome of the
child call (returned boolean, diagnostic entries), modelled from the spec since
`Configurable.setConfiguration` is not among the sources; the source discards
the returned boolean, which is mirrored here by the fold touching only the
error list. -/
def txSetConfiguration (p : TxParams) (oracle : TxWiring → CmdOutcome)
    (confDict : TXKey → Option ℚ) (cwConf : Option (ℕ → Bool))
    (childSet : ℕ → Bool × List ℕ)
    (config : TXKey → Option PyVal) (errors : List TxErr) :
    Bool × (TXKey → Option PyVal) × List TxErr :=
  let a1 := applyWiring ((confDict TXKey.enable).isSome && p.tpwrCmd) (oracle TxWiring.tpwr)
      (TxErr.wiringFail TxWiring.tpwr) (fun c e => setKey c TXKey.enable (some e))
      (true, config, errors)
  let freqAdj := adjustFrequency ((confDict TXKey.frequency).getD 0) p.frqRange p.frqRes p.frqUnits
  let a2 := applyWiring ((confDict TXKey.frequency).isSome && p.frqCmd) (oracle TxWiring.frq)
      (TxErr.wiringFail TxWiring.frq)
      (fun c _ => setKey c TXKey.frequency (some (freqAdj * p.frqUnits))) a1
  let rfAttAdj := adjustAttenuation ((confDict TXKey.attenuation).getD 0) p.attRange p.attRes 1
  let a3 := applyWiring ((confDict TXKey.attenuation).isSome && p.attCmd) (oracle TxWiring.att)
      (TxErr.wiringFail TxWiring.att)
      (fun c _ => setKey c TXKey.attenuation (some rfAttAdj)) a2
  match cwConf with
  | some w =>
    if 0 < p.numToneGen then
      (a3.1, a3.2.1,
        (List.range' p.toneGenIndexBase p.numToneGen).foldl
          (fun errs i => if w i then errs ++ ((childSet i).2.map (TxErr.childInfo i)) else errs)
          a3.2.2)
    else (a3.1, a3.2.1, a3.2.2)
  | none => (a3.1, a3.2.1, a3.2.2)

/-- The diagnostic entries contributed by the tone-generator loop. -/
def txChildErrorList (p : TxParams) (w : ℕ → Bool) (childSet : ℕ → Bool × List ℕ) : List TxErr :=
  (List.range' p.toneGenIndexBase p.numToneGen).flatMap
    (fun i => if w i then (childSet i).2.map (TxErr.childInfo i) else [])

theorem foldl_childErrors (w : ℕ → Bool) (f : ℕ → List TxErr) :
    ∀ (l : List ℕ) (init : List TxErr),
      l.foldl (fun errs i => if w i then errs ++ f i else errs) init
        = init ++ l.flatMap (fun i => if w i then f i else []) := by
  intro l
  induction l with
  | nil => simp
  | cons a t ih =>
    intro init
    simp only [List.foldl_cons, List.flatMap_cons]
    by_cases hw : w a = true
    · rw [if_pos hw, if_pos hw, ih, List.append_assoc]
    · rw [if_neg hw, if_neg hw, ih, List.nil_append]

/-- C4 (corrected): the boolean returned by `_tx._setConfiguration` is the
AND over the *own* wirings of the transmitter only — it is identical to the result
of the same call with no nested CW configuration, whatever the tone-generator
calls return; a failing child contributes its diagnostic entries to the
transmitter list but never changes the returned boolean.  (The original
claim asserted the result ANDs over child invocations too.) -/
theorem txSetConfiguration_result_ignores_children (p : TxParams)
    (oracle : TxWiring → CmdOutcome) (confDict : TXKey → Option ℚ)
    (w : ℕ → Bool) (childSet : ℕ → Bool × List ℕ)
    (config : TXKey → Option PyVal) (errors : List TxErr) :
    (txSetConfiguration p oracle confDict (some w) childSet config errors).1
      = (txSetConfiguration p oracle confDict none childSet config errors).1 ∧
    (txSetConfiguration p oracle confDict (some w) childSet config errors).2.2
      = (txSetConfiguration p oracle confDict none childSet config errors).2.2
        ++ (if 0 < p.numToneGen then txChildErrorList p w childSet else []) := by
  unfold txSetConfiguration txChildErrorList
  by_cases hn : 0 < p.numToneGen
  · simp only [if_pos hn]
    exact ⟨trivial, foldl_childErrors w _ _ _⟩
  · simp only [if_neg hn]
    exact ⟨trivial, by simp⟩

/-- Transmitter outcome oracle where every own wiring succeeds. -/
def txOracleAllOk : TxWiring → CmdOutcome := fun _ => ⟨true, 0⟩

/-- A transmitter with one tone generator (index base 1) and the `_tx` class
numeric attributes. -/
def txBaseParams : TxParams :=
  { frqRange := (20000000, 6000000000)
    frqRes := 1000000
    frqUnits := 1000000
    attRange := (0, 10)
    attRes := 1
    numToneGen := 1
    toneGenIndexBase := 1
    tpwrCmd := true
    frqCmd := true
    attCmd := true }

/-- Child call outcome: the tone generator `setConfiguration` returns
`false` and reports one diagnostic entry. -/
def childFailing : ℕ → Bool × List ℕ := fun _ => (false, [7])

/-- C4 counterexample: a transmitter `setConfiguration` call that only
carries nested CW configuration for tone generator 1, whose child call fails
(returns `false` with a diagnostic entry).  The entry is spliced into the
transmitter diagnostic list, yet the call returns `true` — refuting the
claim that the returned boolean is the AND over every invocation including
child wirings. -/
theorem txSetConfiguration_child_failure_counterexample :
    (txSetConfiguration txBaseParams txOracleAllOk (fun _ => none)
        (some (fun i => i == 1)) childFailing (fun _ => none) []).1 = true ∧
    (childFailing 1).1 = false ∧
    (txSetConfiguration txBaseParams txOracleAllOk (fun _ => none)
        (some (fun i => i == 1)) childFailing (fun _ => none) []).2.2
      = [TxErr.childInfo 1 7] := by
  refine ⟨?_, rfl, ?_⟩
  · simp [txSetConfiguration, applyWiring, childFailing, txBaseParams, List.range']
  · simp [txSetConfiguration, applyWiring, childFailing, txBaseParams, List.range']

/-- The configuration keys of a DUC component (`_duc`). -/
inductive DKey where
  | dataPort | frequency | attenuation | rateIndex | txChannels | mode | streamId
  | filename | startSample | samples | singlePlayback
  deriving DecidableEq

/-- The DUC command wirings, in the order `_duc._setConfiguration` issues
them: the combined configuration command, the snapshot-load command, the
snapshot-transmit command. -/
inductive DucWiring where
  | cfg | snapshotLoad | snapshotTx
  deriving DecidableEq

/-- Which of the DUC commands are defined (non-`None`) for this variant. -/
structure DucParams where
  cfgCmd : Bool
  snapshotLoadCmd : Bool
  snapshotTxCmd : Bool

/-- Modelled from the spec: outcome of one DUC command invocation — `ok` as
for `CmdOutcome`, and `echo k` the value of `getattr(cmd, k)` after the
round-trip for the keys the configuration command covers. -/
structure DucOutcome where
  ok : Bool
  echo : DKey → Option ℚ

/-- The seven keys covered by the combined DUC configuration command. -/
def ducCfgGuard (confDict : DKey → Option ℚ) : Bool :=
  (confDict DKey.dataPort).isSome || (confDict DKey.frequency).isSome
    || (confDict DKey.attenuation).isSome || (confDict DKey.rateIndex).isSome
    || (confDict DKey.txChannels).isSome || (confDict DKey.mode).isSome
    || (confDict DKey.streamId).isSome

/-- First block of `_duc._setConfiguration`: if any covered key is requested
and the configuration command is defined, issue it; on accumulated success
write the seven echoed attributes back into the mirror. -/
def ducCfgStep (p : DucParams) (oracle : DucWiring → DucOutcome) (confDict : DKey → Option ℚ)
    (acc : Bool × (DKey → Option PyVal) × List DucWiring × List DucWiring) :
    Bool × (DKey → Option PyVal) × List DucWiring × List DucWiring :=
  if ducCfgGuard confDict && p.cfgCmd then
    let o := oracle DucWiring.cfg
    ((acc.1 && o.ok),
     (if acc.1 && o.ok then
        setKey (setKey (setKey (setKey (setKey (setKey (setKey acc.2.1
          DKey.dataPort (o.echo DKey.dataPort)) DKey.frequency (o.echo DKey.frequency))
          DKey.attenuation (o.echo DKey.attenuation)) DKey.rateIndex (o.echo DKey.rateIndex))
          DKey.txChannels (o.echo DKey.txChannels)) DKey.mode (o.echo DKey.mode))
          DKey.streamId (o.echo DKey.streamId)
      else acc.2.1),
     acc.2.2.1 ++ (if o.ok then [] else [DucWiring.cfg]),
     acc.2.2.2 ++ [DucWiring.cfg])
  else acc

/-- Second block: the snapshot-load command fires only when *all three* load
keys (filename, start sample, samples) are present and the command is
defined; it updates no mirror entry. -/
def ducLoadStep (p : DucParams) (oracle : DucWiring → DucOutcome) (confDict : DKey → Option ℚ)
    (acc : Bool × (DKey → Option PyVal) × List DucWiring × List DucWiring) :
    Bool × (DKey → Option PyVal) × List DucWiring × List DucWiring :=
  if (confDict DKey.filename).isSome && (confDict DKey.startSample).isSome
      && (confDict DKey.samples).isSome && p.snapshotLoadCmd then
    let o := oracle DucWiring.snapshotLoad
    ((acc.1 && o.ok), acc.2.1,
     acc.2.2.1 ++ (if o.ok then [] else [DucWiring.snapshotLoad]),
     acc.2.2.2 ++ [DucWiring.snapshotLoad])
  else acc

/-- Third block: the snapshot-transmit command fires when *any* of the three
transmit keys (start sample, samples, single playback) is present and the
command is defined — but its parameter dictionary performs unconditional
lookups `confDict[...]` of all three, in source order, so a missing one
raises `KeyError` (modelled as `Except.error` naming the missing key). -/
def ducTxStep (p : DucParams) (oracle : DucWiring → DucOutcome) (confDict : DKey → Option ℚ)
    (acc : Bool × (DKey → Option PyVal) × List DucWiring × List DucWiring) :
    Except DKey (Bool × (DKey → Option PyVal) × List DucWiring × List DucWiring) :=
  if ((confDict DKey.startSample).isSome || (confDict DKey.samples).isSome
      || (confDict DKey.singlePlayback).isSome) && p.snapshotTxCmd then
    match confDict DKey.startSample with
    | none => Except.error DKey.startSample
    | some _ =>
      match confDict DKey.samples with
      | none => Except.error DKey.samples
      | some _ =>
        match confDict DKey.singlePlayback with
        | none => Except.error DKey.singlePlayback
        | some _ =>
          let o := oracle DucWiring.snapshotTx
          Except.ok ((acc.1 && o.ok), acc.2.1,
            acc.2.2.1 ++ (if o.ok then [] else [DucWiring.snapshotTx]),
            acc.2.2.2 ++ [DucWiring.snapshotTx])
  else Except.ok acc

/-- `_duc._setConfiguration(confDict)`: the three blocks in source order.
The state carries (returned boolean, mirrored map, diagnostic list, log of
issued commands in order); a `KeyError` aborts the call. -/
def ducSetConfiguration (p : DucParams) (oracle : DucWiring → DucOutcome)
    (confDict : DKey → Option ℚ) (config : DKey → Option PyVal) (errors : List DucWiring) :
    Except DKey (Bool × (DKey → Option PyVal) × List DucWiring × List DucWiring) :=
  ducTxStep p oracle confDict
    (ducLoadStep p oracle confDict
      (ducCfgStep p oracle confDict (true, config, errors, [])))

/-- C5: on a snapshot-capable DUC (both the load and the transmit snapshot
commands defined), a single `setConfiguration` call whose map carries the
snapshot-load keys (filename, start sample, samples) together with the
snapshot-transmit keys completes without error and issues the load-snapshot
invocation strictly before the transmit-snapshot invocation: the command log
ends with load followed by transmit, and neither occurs earlier in the log. -/
theorem ducSetConfiguration_load_before_tx (p : DucParams) (oracle : DucWiring → DucOutcome)
    (confDict : DKey → Option ℚ) (config : DKey → Option PyVal) (errors : List DucWiring)
    (hL : p.snapshotLoadCmd = true) (hT : p.snapshotTxCmd = true)
    (h1 : (confDict DKey.filename).isSome = true)
    (h2 : (confDict DKey.startSample).isSome = true)
    (h3 : (confDict DKey.samples).isSome = true)
    (h4 : (confDict DKey.singlePlayback).isSome = true) :
    ∃ pre b cfg errs,
      ducSetConfiguration p oracle confDict config errors
        = Except.ok (b, cfg, errs, pre ++ [DucWiring.snapshotLoad, DucWiring.snapshotTx]) ∧
      DucWiring.snapshotLoad ∉ pre ∧ DucWiring.snapshotTx ∉ pre := by
  obtain ⟨sv, ha⟩ := Option.isSome_iff_exists.mp h2
  obtain ⟨smv, hb⟩ := Option.isSome_iff_exists.mp h3
  obtain ⟨spv, hc⟩ := Option.isSome_iff_exists.mp h4
  by_cases hg : (ducCfgGuard confDict && p.cfgCmd) = true
  · simp only [ducSetConfiguration, ducCfgStep, ducLoadStep, ducTxStep, hg, if_true,
      h1, h2, h3, hL, hT, ha, hb, hc, Option.isSome_some, Bool.and_true, Bool.true_and,
      Bool.or_true, Bool.true_or, Bool.and_self, List.nil_append, List.append_assoc,
      List.cons_append]
    exact ⟨[DucWiring.cfg], _, _, _, rfl, by simp, by simp⟩
  · rw [Bool.not_eq_true] at hg
    simp only [ducSetConfiguration, ducCfgStep, ducLoadStep, ducTxStep, hg,
      Bool.false_eq_true, if_false,
      h1, h2, h3, hL, hT, ha, hb, hc, Option.isSome_some, Bool.and_true, Bool.true_and,
      Bool.or_true, Bool.true_or, Bool.and_self, List.nil_append, List.append_assoc,
      List.cons_append]
    exact ⟨[], _, _, _, rfl, by simp, by simp⟩

/-- Snapshot-capable DUC: every command defined. -/
def ducSnapParams : DucParams := ⟨true, true, true⟩

/-- DUC outcome oracle: every invocation succeeds, echoes are `None`. -/
def ducOracleOk : DucWiring → DucOutcome := fun _ => ⟨true, fun _ => none⟩

/-- Requested DUC map carrying the snapshot-load keys and the
snapshot-transmit keys. -/
def confSnapshotBoth : DKey → Option ℚ :=
  fun k => match k with
  | DKey.filename => some 1
  | DKey.startSample => some 2
  | DKey.samples => some 3
  | DKey.singlePlayback => some 0
  | _ => none

theorem ducSetConfiguration_load_before_tx_witness :
    ∃ pre b cfg errs,
      ducSetConfiguration ducSnapParams ducOracleOk confSnapshotBoth (fun _ => none) []
        = Except.ok (b, cfg, errs, pre ++ [DucWiring.snapshotLoad, DucWiring.snapshotTx]) ∧
      DucWiring.snapshotLoad ∉ pre ∧ DucWiring.snapshotTx ∉ pre :=
  ducSetConfiguration_load_before_tx ducSnapParams ducOracleOk confSnapshotBoth
    (fun _ => none) [] rfl rfl rfl rfl rfl rfl

/-- C10: on a DUC whose transmit-snapshot command is defined, a
`_setConfiguration` map that contains the single-playback key but omits the
start-sample key or the samples key raises `KeyError` (the guard admits any
one of the three transmit keys, but the parameter dictionary looks all three
up unconditionally), instead of completing and returning a boolean; the
raised key is the start-sample or the samples key. -/
theorem ducSetConfiguration_singlePlayback_keyError (p : DucParams)
    (oracle : DucWiring → DucOutcome) (confDict : DKey → Option ℚ)
    (config : DKey → Option PyVal) (errors : List DucWiring)
    (hT : p.snapshotTxCmd = true)
    (hsp : (confDict DKey.singlePlayback).isSome = true)
    (hmiss : confDict DKey.startSample = none ∨ confDict DKey.samples = none) :
    ∃ k, ducSetConfiguration p oracle confDict config errors = Except.error k ∧
      (k = DKey.startSample ∨ k = DKey.samples) := by
  cases hss : confDict DKey.startSample with
  | none =>
    refine ⟨DKey.startSample, ?_, Or.inl rfl⟩
    simp only [ducSetConfiguration, ducTxStep, hss, hsp, hT, Option.isSome_none,
      Bool.false_or, Bool.or_true, Bool.and_true, Bool.true_and, if_true]
  | some sv =>
    have hsm : confDict DKey.samples = none := by
      rcases hmiss with h | h
      · rw [h] at hss
        exact Option.noConfusion hss
      · exact h
    refine ⟨DKey.samples, ?_, Or.inr rfl⟩
    simp only [ducSetConfiguration, ducTxStep, hss, hsm, hsp, hT, Option.isSome_some,
      Bool.true_or, Bool.or_true, Bool.and_true, Bool.true_and, if_true]

/-- DUC variant with only the transmit-snapshot command defined. -/
def ducTxOnlyParams : DucParams := ⟨false, false, true⟩

/-- Requested DUC map carrying only the single-playback key. -/
def confSinglePlaybackOnly : DKey → Option ℚ :=
  fun k => match k with
  | DKey.singlePlayback => some 1
  | _ => none

theorem ducSetConfiguration_singlePlayback_keyError_witness :
    ∃ k, ducSetConfiguration ducTxOnlyParams ducOracleOk confSinglePlaybackOnly
        (fun _ => none) [] = Except.error k ∧
      (k = DKey.startSample ∨ k = DKey.samples) :=
  ducSetConfiguration_singlePlayback_keyError ducTxOnlyParams ducOracleOk
    confSinglePlaybackOnly (fun _ => none) [] rfl rfl (Or.inl rfl)
